import Mathlib

/-!
Verification of the Audient normalization/validation pipeline.

This file gives a shallow embedding of the core normalization and
validation code of the repository (`app/agent/utils.py` and
`app/agent/nodes/validation_node.py`) and proves the specified
properties about it.

Modelling conventions:
* Python runtime values are modelled by the inductive type `Value`
  (None, bool, int, float, str, list, dict).  Python floats are
  modelled as rationals; the operations exercised here (parsing
  decimal literals, `int(float(x))` truncation) agree with the float
  semantics on the values the spec talks about.  Non-finite floats
  (inf/nan) and underscore digit separators are outside the model.
* The static JSON data files (`supported_fields.json`,
  `value_mappings.json`) are not part of the sources; they are
  modelled from the spec as explicit parameters/constants
  (`Config`, `Mappings`) wherever a concrete instance is needed.
* The external `dateutil` fuzzy parser and `datetime.now()` are
  external collaborators; they are modelled as function parameters
  `fz : String → Option String` (the result of
  `parse(s, fuzzy=True).strftime("%Y-%m-%d")`, `none` on exception)
  and `nmd : Nat → String` (the result of
  `(datetime.now() - timedelta(days=n)).strftime("%Y-%m-%d")`).
* Python `str.strip`/`str.lower` are modelled on ASCII (the Arabic
  alphabet used by the data has no case and no exotic whitespace).
-/

namespace Audient

/-- Python runtime values as they occur in the pipeline. -/
inductive Value where
  | vnone : Value
  | vbool (b : Bool) : Value
  | vint (n : Int) : Value
  | vfloat (q : ℚ) : Value
  | vstr (s : String) : Value
  | vlist (l : List Value) : Value
  | vdict (l : List (String × Value)) : Value
  deriving Repr

/-- Python type name of a value, as it appears in error messages. -/
def pyTypeName : Value → String
  | .vnone => "NoneType"
  | .vbool _ => "bool"
  | .vint _ => "int"
  | .vfloat _ => "float"
  | .vstr _ => "str"
  | .vlist _ => "list"
  | .vdict _ => "dict"

/-- Characters treated as whitespace by Python `str.strip`. -/
def pySpace (c : Char) : Bool :=
  c = ' ' || c = '\t' || c = '\n' || c = '\x0d' || c = '\x0b' || c = '\x0c'

/-- Strip leading whitespace. -/
def stripL (l : List Char) : List Char := l.dropWhile pySpace

/-- Strip trailing whitespace. -/
def stripR (l : List Char) : List Char := (l.reverse.dropWhile pySpace).reverse

/-- Python `str.strip` on character lists. -/
def pyStripList (l : List Char) : List Char := stripR (stripL l)

/-- Python `str.strip`. -/
def pyStrip (s : String) : String := ⟨pyStripList s.data⟩

/-- Python `str.lower` on character lists (ASCII). -/
def lowerList (l : List Char) : List Char := l.map Char.toLower

/-- Python `str.lower`. -/
def lowerStr (s : String) : String := ⟨lowerList s.data⟩

/-- Boolean check that `p` is a prefix of `l`. -/
def prefixCheck : List Char → List Char → Bool
  | [], _ => true
  | _ :: _, [] => false
  | a :: as, b :: bs => a = b && prefixCheck as bs

/-- Boolean substring check (Python `needle in hay` on strings). -/
def isSubB (needle : List Char) : List Char → Bool
  | [] => needle.isEmpty
  | c :: t => prefixCheck needle (c :: t) || isSubB needle t

/-- Numeric value of a list of decimal digits. -/
def natOfDigits (ds : List Char) : Nat :=
  ds.foldl (fun a c => a * 10 + (c.toNat - 48)) 0

/-- Exponent suffix of a Python float literal: the mantissa is
`m / 10^k`; an optional `e`/`E` exponent scales it.  The rational
value is built with `mkRat` over integer arithmetic only, so that
proofs can evaluate it. -/
def pfExp (m : Int) (k : Nat) : List Char → Option ℚ
  | [] => some (mkRat m (10 ^ k))
  | c :: r =>
    if c = 'e' || c = 'E' then
      let p : Bool × List Char :=
        match r with
        | '+' :: r3 => (false, r3)
        | '-' :: r3 => (true, r3)
        | _ => (false, r)
      let ds := p.2.takeWhile Char.isDigit
      let rest := p.2.dropWhile Char.isDigit
      if ds.isEmpty || !rest.isEmpty then none
      else
        if p.1 then some (mkRat m (10 ^ (k + natOfDigits ds)))
        else some (mkRat (m * (10 : Int) ^ natOfDigits ds) (10 ^ k))
    else none

/-- Python `float(s)` on a string: parse a (finite) float literal,
`none` models `ValueError`.  Surrounding whitespace is accepted, as in
Python. -/
def parsePyFloat (s : String) : Option ℚ :=
  let l := pyStripList s.data
  let p : Int × List Char :=
    match l with
    | '+' :: r => (1, r)
    | '-' :: r => (-1, r)
    | _ => (1, l)
  let ip := p.2.takeWhile Char.isDigit
  let r1 := p.2.dropWhile Char.isDigit
  match r1 with
  | '.' :: r2 =>
    let fp := r2.takeWhile Char.isDigit
    let r3 := r2.dropWhile Char.isDigit
    if ip.isEmpty && fp.isEmpty then none
    else pfExp (p.1 * (natOfDigits ip * 10 ^ fp.length + natOfDigits fp)) fp.length r3
  | _ => if ip.isEmpty then none else pfExp (p.1 * natOfDigits ip) 0 r1

/-- Python `float(x)`: `none` models `ValueError`/`TypeError`. -/
def pyFloat : Value → Option ℚ
  | .vbool b => some (if b then mkRat 1 1 else mkRat 0 1)
  | .vint n => some (mkRat n 1)
  | .vfloat q => some q
  | .vstr s => parsePyFloat s
  | _ => none

/-- Python `int(f)` on a float: truncation toward zero. -/
def ratTrunc (q : ℚ) : Int := Int.tdiv q.num q.den

/-- Association-list lookup with string keys (Python dict lookup; the
data dictionaries have unique keys, so first match is dict lookup). -/
def alookup {β : Type} : List (String × β) → String → Option β
  | [], _ => none
  | (k, v) :: t, key => if key = k then some v else alookup t key

/-- The value-mapping tables of `value_mappings.json`, as data. -/
structure Mappings where
  gender_mappings : List (String × String)
  country_mappings : List (String × String)
  city_mappings : List (String × String)
  boolean_mappings : List (String × Bool)
  month_names : List (String × String)

/-- The country scan of `normalize_value` (`utils.py` lines 129-132):
first entry whose lowercased key is a substring of the lowercased
value.  `v` is the already lowercased value. -/
def countryScan : List (String × String) → List Char → Option String
  | [], _ => none
  | (k, w) :: t, v => if isSubB (lowerList k.data) v then some w else countryScan t v

/-- The city scan of `normalize_value` (`utils.py` lines 134-137):
substring match in either direction.  `v` is the already lowercased
value. -/
def cityScan : List (String × String) → List Char → Option String
  | [], _ => none
  | (k, w) :: t, v =>
    if isSubB (lowerList k.data) v || isSubB v (lowerList k.data) then some w
    else cityScan t v

/-- Field alias table of `normalize_field_name` (`utils.py` 54-67). -/
def field_aliases : List (String × String) :=
  [("sex", "gender"),
   ("join_date", "joining_date"),
   ("signup_date", "joining_date"),
   ("registration_date", "joining_date"),
   ("orders", "total_orders"),
   ("order_count", "total_orders"),
   ("num_orders", "total_orders"),
   ("sales", "total_sales"),
   ("revenue", "total_sales"),
   ("rating", "store_rating"),
   ("last_order", "latest_purchase"),
   ("last_purchase", "latest_purchase")]

/-- `normalize_field_name` (`utils.py` 42-69):
`field.lower().strip().replace(" ", "_")`, then the alias table. -/
def normalize_field_name (field : String) : String :=
  let f : String := ⟨(pyStripList (lowerList field.data)).map (fun c => if c = ' ' then '_' else c)⟩
  (alookup field_aliases f).getD f

/-- Operator alias table of `normalize_operator` (`utils.py` 83-103). -/
def operator_aliases : List (String × String) :=
  [("equals", "="),
   ("equal", "="),
   ("is", "="),
   ("not equals", "!="),
   ("not equal", "!="),
   ("is not", "!="),
   ("greater than", ">"),
   ("more than", ">"),
   ("gt", ">"),
   ("less than", "<"),
   ("lt", "<"),
   ("greater than or equal", ">="),
   ("at least", ">="),
   ("gte", ">="),
   ("less than or equal", "<="),
   ("at most", "<="),
   ("lte", "<="),
   ("in range", "between"),
   ("range", "between")]

/-- `normalize_operator` (`utils.py` 72-105): trim, then look the
lowercased operator up in the alias table; on a miss return the
trimmed operator. -/
def normalize_operator (op : String) : String :=
  let t := pyStrip op
  (alookup operator_aliases (lowerStr t)).getD t

/-- The regex search `(\d+)\s*days?` (case-insensitive) of
`parse_date`: leftmost digit run followed by optional whitespace and
the token `day`. -/
def daysScan : List Char → Option Nat
  | [] => none
  | c :: t =>
    if c.isDigit then
      let ds := (c :: t).takeWhile Char.isDigit
      let rest := ((c :: t).dropWhile Char.isDigit).dropWhile pySpace
      if prefixCheck ['d', 'a', 'y'] (lowerList rest) then some (natOfDigits ds)
      else daysScan t
    else daysScan t

/-- Scanner for `replaceCI`, structurally recursive on a fuel bound
that dominates the remaining text length (so that it reduces by
computation); called with `fuel = hay.length` the zero-fuel case is
unreachable. -/
def replaceCIGo (needle repl : List Char) : Nat → List Char → List Char
  | _, [] => []
  | 0, hay => hay
  | fuel + 1, c :: t =>
    if prefixCheck (lowerList needle) (lowerList (c :: t))
    then repl ++ replaceCIGo needle repl fuel (t.drop (needle.length - 1))
    else c :: replaceCIGo needle repl fuel t

/-- Case-insensitive replacement of every (non-overlapping, leftmost
first) occurrence of `needle` by `repl`, as
`re.compile(re.escape(name), re.IGNORECASE).sub(num, s)` does.  An
empty needle is never passed (month names are nonempty); the scanner
then consumes at least one character per step. -/
def replaceCI (needle repl : List Char) (hay : List Char) : List Char :=
  replaceCIGo needle repl hay.length hay

/-- The month-name substitution loop of `parse_date`
(`utils.py` 184-186). -/
def monthSubst (M : Mappings) (l : List Char) : List Char :=
  M.month_names.foldl (fun acc p => replaceCI p.1.data p.2.data acc) l

/-- `parse_date` (`utils.py` 163-194).  `nmd n` models
`(datetime.now() - timedelta(days=n)).strftime("%Y-%m-%d")`; `fz`
models the external dateutil fuzzy parse (`none` on exception). -/
def parse_date (M : Mappings) (nmd : Nat → String) (fz : String → Option String)
    (s : String) : String :=
  let ds := pyStripList s.data
  match (if isSubB ['l', 'a', 's', 't'] (lowerList ds) then daysScan ds else none) with
  | some n => nmd n
  | none =>
    let ds2 := monthSubst M ds
    match fz ⟨ds2⟩ with
    | some d => d
    | none => ⟨ds2⟩

/-- The numeric coercion tail of `normalize_value`
(`utils.py` 147-160): `int(float(value))` for integer fields on
non-bool values, `float(value)` for float fields; parse failures fall
through to returning the value unchanged. -/
def numericPhase (v : Value) (t : String) : Value :=
  if t = "integer" then
    match v with
    | .vbool _ => v
    | _ =>
      match pyFloat v with
      | some q => .vint (ratTrunc q)
      | none => v
  else if t = "float" then
    match pyFloat v with
    | some q => .vfloat q
    | none => v
  else v

/-- The string section of `normalize_value` (`utils.py` 122-145),
applied to the already stripped string `s`. -/
def normStr (M : Mappings) (nmd : Nat → String) (fz : String → Option String)
    (field : String) (s : String) (t : String) : Value :=
  match (if field = "gender" then alookup M.gender_mappings (lowerStr s) else none) with
  | some w => .vstr w
  | none =>
    match (if field = "country" then countryScan M.country_mappings (lowerList s.data) else none) with
    | some w => .vstr w
    | none =>
      match (if field = "city" then cityScan M.city_mappings (lowerList s.data) else none) with
      | some w => .vstr w
      | none =>
        match (if t = "boolean" then alookup M.boolean_mappings (lowerStr s) else none) with
        | some b => .vbool b
        | none =>
          if t = "date" then .vstr (parse_date M nmd fz s)
          else numericPhase (.vstr s) t

/-- `normalize_value` (`utils.py` 108-160). -/
def normalize_value (M : Mappings) (nmd : Nat → String) (fz : String → Option String)
    (field : String) (value : Value) (t : String) : Value :=
  match value with
  | .vstr s0 => normStr M nmd fz field ⟨pyStripList s0.data⟩ t
  | v => numericPhase v t

/-- The field catalog of `supported_fields.json`
(see `load_supported_fields`), as data. -/
structure Config where
  fields : List (String × List String)
  operators : List String
  field_types : List (String × String)
  valid_operators_per_type : List (String × List String)

/-- The flattening of the catalog's categories, as done both by
`get_all_supported_fields` (`utils.py` 33-39) and inline by
`validate_filter` (`utils.py` 214-216). -/
def get_all_supported_fields (config : Config) : List String :=
  (config.fields.map Prod.snd).flatten

/-- A normalized filter as built by `validation_node`
(`validation_node.py` 60-64): the field and operator are strings and
the value is an arbitrary Python value. -/
structure NormFilter where
  field : String
  operator : String
  value : Value

/-- The missing-value test of `validate_filter` (`utils.py` 236):
`value is None or (isinstance(value, str) and not value.strip())`. -/
def isMissing : Value → Bool
  | .vnone => true
  | .vstr s => (pyStripList s.data).isEmpty
  | _ => false

/-- The pair test of `validate_filter` (`utils.py` 241):
`isinstance(value, list) and len(value) == 2`. -/
def isPair : Value → Bool
  | .vlist l => l.length == 2
  | _ => false

/-- `validate_filter` (`utils.py` 197-246). -/
def validate_filter (f : NormFilter) (config : Config) : List String :=
  if f.field ∈ get_all_supported_fields config then
    (if f.operator ∈ config.operators then [] else ["Unsupported operator: " ++ f.operator])
    ++ (match alookup config.field_types f.field with
        | some ft =>
          if ft = "" then []
          else if f.operator ∈ (alookup config.valid_operators_per_type ft).getD [] then []
          else ["Operator '" ++ f.operator ++ "' is not valid for field '" ++ f.field
                ++ "' of type '" ++ ft ++ "'"]
        | none => [])
    ++ (if isMissing f.value then ["Missing value for field: " ++ f.field] else [])
    ++ (if f.operator = "between" && !isPair f.value then
          ["Operator 'between' requires a list of two values for field: " ++ f.field]
        else [])
  else ["Unsupported field: " ++ f.field]

/-- Python `AttributeError` message raised by `x.attr` on a value
without that attribute. -/
def attrError (v : Value) (attr : String) : String :=
  "'" ++ pyTypeName v ++ "' object has no attribute '" ++ attr ++ "'"

/-- Python `dict.get(key, default)` on the dict model. -/
def dictGet (d : List (String × Value)) (key : String) (dflt : Value) : Value :=
  (alookup d key).getD dflt

/-- The body of the per-candidate `try` block of `validation_node`
(`validation_node.py` 37-67 up to the construction of the normalized
filter): canonicalize the field and operator, look up the field type
(defaulting to `"string"`), normalize the value (element-wise for
list values).  `Except.error` models a raised exception, carrying
`str(e)`: a non-dict candidate raises `AttributeError` on `.get`, a
non-string field or operator raises `AttributeError` on `.lower()`
inside the canonicalizers. -/
def processCandidate (config : Config) (M : Mappings) (nmd : Nat → String)
    (fz : String → Option String) (cand : Value) : Except String NormFilter :=
  match cand with
  | .vdict d =>
    match dictGet d "field" (.vstr "") with
    | .vstr field =>
      match dictGet d "operator" (.vstr "") with
      | .vstr op =>
        let nf := normalize_field_name field
        let nop := normalize_operator op
        let ft := (alookup config.field_types nf).getD "string"
        let v := dictGet d "value" .vnone
        let nv : Value :=
          match v with
          | .vlist l => .vlist (l.map (fun x => normalize_value M nmd fz nf x ft))
          | w => normalize_value M nmd fz nf w ft
        .ok ⟨nf, nop, nv⟩
      | w => .error (attrError w "lower")
    | w => .error (attrError w "lower")
  | w => .error (attrError w "get")

/-- The normalized-filter dict appended to `validated_filters`
(`validation_node.py` 60-64). -/
def filterToValue (f : NormFilter) : Value :=
  .vdict [("field", .vstr f.field), ("operator", .vstr f.operator), ("value", f.value)]

/-- The loop of `validation_node` (`validation_node.py` 36-95),
started at index `i`: returns the validated filters and the
validation error strings. -/
def processFilters (config : Config) (M : Mappings) (nmd : Nat → String)
    (fz : String → Option String) (i : Nat) : List Value → List NormFilter × List String
  | [] => ([], [])
  | c :: rest =>
    let tail := processFilters config M nmd fz (i + 1) rest
    match processCandidate config M nmd fz c with
    | .error m =>
      (tail.1, ("Filter " ++ toString (i + 1) ++ ": Validation exception - " ++ m) :: tail.2)
    | .ok nf =>
      let fe := validate_filter nf config
      if fe.isEmpty then (nf :: tail.1, tail.2)
      else (tail.1, fe.map (fun e => "Filter " ++ toString (i + 1) ++ ": " ++ e) ++ tail.2)

/-- Python `{**state, key: v}` on the dict model: overwrite in place
if the key is present, else append. -/
def dictSet (d : List (String × Value)) (key : String) (v : Value) :
    List (String × Value) :=
  if key ∈ d.map Prod.fst
  then d.map (fun p => if p.1 = key then (key, v) else p)
  else d ++ [(key, v)]

/-- `validation_node` (`validation_node.py` 16-110).  The result is
`none` when the Python function would raise a `TypeError` outside the
per-candidate `try` (a present `raw_filters` that is not a list, or a
present `errors` that is not a list); on a dict-shaped state it
returns the updated state. -/
def validation_node (config : Config) (M : Mappings) (nmd : Nat → String)
    (fz : String → Option String) (state : List (String × Value)) :
    Option (List (String × Value)) :=
  match dictGet state "raw_filters" (.vlist []), dictGet state "errors" (.vlist []) with
  | .vlist raws, .vlist errs0 =>
    let r := processFilters config M nmd fz 0 raws
    some (dictSet (dictSet state "validated_filters" (.vlist (r.1.map filterToValue)))
      "errors" (.vlist (errs0 ++ r.2.map Value.vstr)))
  | _, _ => none

/-- Modelled from the spec: `supported_fields.json` is not among the
sources; this concrete catalog instance is reconstructed from spec
sections 3 and 6 and the repository's test fixtures (field names,
types, operator vocabulary, and the legal operator subsets per
type). -/
def demoConfig : Config :=
  { fields := [("customer_attributes", ["gender", "joining_date"]),
               ("sales_engagement", ["total_orders", "store_rating", "total_sales"]),
               ("geographic_attributes", ["city", "country"])],
    operators := ["=", "!=", "<", ">", "<=", ">=", "between"],
    field_types := [("gender", "string"), ("joining_date", "date"),
                    ("total_orders", "integer"), ("store_rating", "float"),
                    ("total_sales", "float"), ("city", "string"), ("country", "string")],
    valid_operators_per_type :=
      [("string", ["=", "!="]),
       ("integer", ["=", "!=", "<", ">", "<=", ">=", "between"]),
       ("float", ["=", "!=", "<", ">", "<=", ">=", "between"]),
       ("date", ["=", "!=", "<", ">", "<=", ">=", "between"]),
       ("boolean", ["=", "!="])] }

/-- Modelled from the spec: `value_mappings.json` is not among the
sources; this concrete mapping instance is reconstructed from spec
sections 3 and 8 (gender/city samples, bilingual aliases) and the
repository's tests. -/
def demoMappings : Mappings :=
  { gender_mappings := [("male", "Male"), ("m", "Male"), ("ذكر", "Male"),
                        ("female", "Female"), ("f", "Female"), ("انثى", "Female")],
    country_mappings := [("saudi", "Saudi Arabia"), ("emirates", "United Arab Emirates")],
    city_mappings := [("الرياض", "Riyadh"), ("جدة", "Jeddah"), ("دبي", "Dubai")],
    boolean_mappings := [("yes", true), ("no", false), ("true", true), ("false", false)],
    month_names := [("january", "01"), ("february", "02"), ("march", "03"),
                    ("april", "04"), ("may", "05"), ("june", "06"),
                    ("july", "07"), ("august", "08"), ("september", "09"),
                    ("october", "10"), ("november", "11"), ("december", "12")] }

/-- A trivial stand-in for the external fuzzy date library: fails on
every input (used to instantiate witnesses; the theorems themselves
are parametric in the external collaborator). -/
def fzNone : String → Option String := fun _ => none

/-- A trivial stand-in for `datetime.now() - timedelta(days=n)`
formatting (used to instantiate witnesses). -/
def nmdConst : Nat → String := fun _ => "2099-01-01"

/-- The error strings contributed by the candidate at (0-based) index
`j` in one pass of the `validation_node` loop: a single exception
record for a raised candidate, else the prefixed validation errors
(none for a valid candidate). -/
def perCandErrs (config : Config) (M : Mappings) (nmd : Nat → String)
    (fz : String → Option String) (j : Nat) (c : Value) : List String :=
  match processCandidate config M nmd fz c with
  | .error m => ["Filter " ++ toString (j + 1) ++ ": Validation exception - " ++ m]
  | .ok nf => (validate_filter nf config).map (fun e => "Filter " ++ toString (j + 1) ++ ": " ++ e)

/-- The normalized filter a candidate contributes to
`validated_filters`: present exactly when processing raised no
exception and validation produced zero errors. -/
def okFilter (config : Config) (M : Mappings) (nmd : Nat → String)
    (fz : String → Option String) (c : Value) : Option NormFilter :=
  match processCandidate config M nmd fz c with
  | .ok nf => if (validate_filter nf config).isEmpty then some nf else none
  | .error _ => none

/-- The matching rule asserted by the spec for country normalization,
written from the spec's words for comparison with the code: scan for
the first entry whose key is a case-insensitive substring of the
value or whose key case-insensitively contains the value (substring
match in either direction). -/
def countryScanSpec : List (String × String) → List Char → Option String
  | [], _ => none
  | (k, w) :: t, v =>
    if isSubB (lowerList k.data) v || isSubB v (lowerList k.data) then some w
    else countryScanSpec t v

/-- Sanity conditions on a date produced by the relative-date
formatter or the fuzzy parser (a `YYYY-MM-DD`-shaped string): it is
whitespace-trimmed, hits none of the string mapping tables, and
re-parsing it reproduces it. -/
def DateOutOK (M : Mappings) (nmd : Nat → String) (fz : String → Option String)
    (w : String) : Prop :=
  pyStrip w = w ∧
  alookup M.gender_mappings (lowerStr w) = none ∧
  countryScan M.country_mappings (lowerList w.data) = none ∧
  cityScan M.city_mappings (lowerList w.data) = none ∧
  parse_date M nmd fz w = w

/-- Re-normalization stability of the mapping tables (satisfied by
the repository's bilingual alias data): mapped values are trimmed;
a gender value looks itself up again; a country value is matched by
its own table back to itself; a city value either rescans to itself
or is inert under every later normalization step. -/
def MappingsStable (M : Mappings) (nmd : Nat → String)
    (fz : String → Option String) : Prop :=
  (∀ p ∈ M.gender_mappings,
     pyStrip p.2 = p.2 ∧ alookup M.gender_mappings (lowerStr p.2) = some p.2) ∧
  (∀ p ∈ M.country_mappings,
     pyStrip p.2 = p.2 ∧ countryScan M.country_mappings (lowerList p.2.data) = some p.2) ∧
  (∀ p ∈ M.city_mappings,
     pyStrip p.2 = p.2 ∧
       (cityScan M.city_mappings (lowerList p.2.data) = some p.2 ∨
        (cityScan M.city_mappings (lowerList p.2.data) = none ∧
         alookup M.boolean_mappings (lowerStr p.2) = none ∧
         parsePyFloat p.2 = none ∧
         parse_date M nmd fz p.2 = p.2))) ∧
  (∀ n, DateOutOK M nmd fz (nmd n)) ∧
  (∀ s w, fz s = some w → DateOutOK M nmd fz w) ∧
  (∀ l : List Char, fz ⟨monthSubst M l⟩ = none → monthSubst M l = l)

/-- The identity on non-strings, whitespace-trimming on strings: what
`normalize_value` does to a value no later rule touches. -/
def stripValue : Value → Value
  | .vstr s => .vstr (pyStrip s)
  | v => v

/-- Modelled from the spec: a country-mapping instance containing a
multi-word alias key, of the shape the bilingual country table
plausibly contains (the actual `value_mappings.json` is not among
the sources). -/
def countryTableCx : Mappings :=
  { demoMappings with country_mappings := [("saudi arabia", "Saudi Arabia")] }

/-- Modelled from the spec: a small mapping-table instance (bilingual
gender/country/city aliases, boolean tokens, no month names) used to
instantiate the idempotence theorem's stability hypotheses at a
concrete point. -/
def stableMappings : Mappings :=
  { gender_mappings := [("m", "Male"), ("male", "Male"), ("female", "Female"), ("f", "Female")],
    country_mappings := [("saudi", "Saudi Arabia")],
    city_mappings := [("الرياض", "Riyadh")],
    boolean_mappings := [("yes", true), ("no", false)],
    month_names := [] }

/-! Helper lemmas. -/

lemma dropWhile_self (p : Char → Bool) (l : List Char) :
    (l.dropWhile p).dropWhile p = l.dropWhile p := by
  induction l with
  | nil => rfl
  | cons a t ih =>
    by_cases h : p a
    · simp [List.dropWhile_cons, h, ih]
    · simp [List.dropWhile_cons, h]

lemma stripR_stripR (l : List Char) : stripR (stripR l) = stripR l := by
  unfold stripR
  rw [List.reverse_reverse, dropWhile_self]

lemma stripL_stripR_stripL (l : List Char) :
    stripL (stripR (stripL l)) = stripR (stripL l) := by
  unfold stripL
  rcases hy : l.dropWhile pySpace with _ | ⟨a, t⟩
  · rfl
  · have ha : pySpace a = false := by
      have hne : l.dropWhile pySpace ≠ [] := by simp [hy]
      have := List.head_dropWhile_not pySpace l hne
      rwa [show (l.dropWhile pySpace).head hne = a by simp [hy]] at this
    show List.dropWhile pySpace (stripR (a :: t)) = stripR (a :: t)
    unfold stripR
    rw [List.reverse_cons, List.dropWhile_append]
    by_cases he : (t.reverse.dropWhile pySpace).isEmpty = true
    · rw [if_pos he]
      simp [List.dropWhile_cons, ha]
    · rw [if_neg he]
      rw [List.reverse_append]
      simp [List.dropWhile_cons, ha]

lemma pyStripList_idem (l : List Char) :
    pyStripList (pyStripList l) = pyStripList l := by
  unfold pyStripList
  rw [stripL_stripR_stripL, stripR_stripR]

lemma data_mk (l : List Char) : (String.mk l).data = l := rfl

lemma pyStrip_pyStrip (s : String) : pyStrip (pyStrip s) = pyStrip s := by
  unfold pyStrip
  exact congrArg String.mk (pyStripList_idem s.data)

lemma pyStrip_mk_strip (l : List Char) :
    pyStrip ⟨pyStripList l⟩ = ⟨pyStripList l⟩ := by
  unfold pyStrip
  exact congrArg String.mk (pyStripList_idem l)

lemma parsePyFloat_strip (s : String) : parsePyFloat (pyStrip s) = parsePyFloat s := by
  unfold parsePyFloat pyStrip
  rw [data_mk, pyStripList_idem]

lemma alookup_cons {β : Type} (a : String) (b : β) (t : List (String × β)) (k : String) :
    alookup ((a, b) :: t) k = if k = a then some b else alookup t k := rfl

lemma alookup_update_self {k : String} {v : Value} :
    ∀ d : List (String × Value), k ∈ d.map Prod.fst →
      alookup (d.map fun p => if p.1 = k then (k, v) else p) k = some v := by
  intro d
  induction d with
  | nil => intro h; simp at h
  | cons p t ih =>
    rcases p with ⟨k1, v1⟩
    intro h
    by_cases hp : k1 = k
    · subst hp
      simp [alookup_cons]
    · have hm : k ∈ t.map Prod.fst := by
        rcases (by simpa using h : k = k1 ∨ k ∈ t.map Prod.fst) with h1 | h1
        · exact absurd h1.symm hp
        · exact h1
      simp only [List.map_cons, if_neg hp, alookup_cons]
      rw [if_neg (fun h' : k = k1 => hp h'.symm)]
      exact ih hm

lemma alookup_update_ne {k k' : String} {v : Value} (hne : k' ≠ k) :
    ∀ d : List (String × Value),
      alookup (d.map fun p => if p.1 = k then (k, v) else p) k' = alookup d k' := by
  intro d
  induction d with
  | nil => rfl
  | cons p t ih =>
    rcases p with ⟨k1, v1⟩
    by_cases hp : k1 = k
    · subst hp
      simp only [List.map_cons]
      rw [if_pos trivial]
      rw [alookup_cons, alookup_cons, if_neg hne, if_neg hne, ih]
    · simp only [List.map_cons]
      rw [if_neg hp]
      rw [alookup_cons, alookup_cons]
      by_cases hk : k' = k1
      · simp [hk]
      · rw [if_neg hk, if_neg hk, ih]

lemma alookup_append_right {k : String} {v : Value} :
    ∀ d : List (String × Value), k ∉ d.map Prod.fst →
      alookup (d ++ [(k, v)]) k = some v := by
  intro d
  induction d with
  | nil => intro _; simp [alookup_cons]
  | cons p t ih =>
    intro h
    rcases p with ⟨k1, v1⟩
    have h1 : ¬ k = k1 := by
      intro hk; exact h (by simp [hk])
    have h2 : k ∉ t.map Prod.fst := by
      intro hk; exact h (by simp [hk])
    simp only [List.cons_append, alookup_cons]
    rw [if_neg h1]
    exact ih h2

lemma alookup_append_ne {k k' : String} {v : Value} (hne : k' ≠ k) :
    ∀ d : List (String × Value), alookup (d ++ [(k, v)]) k' = alookup d k' := by
  intro d
  induction d with
  | nil => simp [alookup_cons, alookup, hne]
  | cons p t ih =>
    rcases p with ⟨k1, v1⟩
    simp only [List.cons_append, alookup_cons]
    by_cases hk : k' = k1
    · simp [hk]
    · rw [if_neg hk, if_neg hk, ih]

lemma alookup_dictSet_self (d : List (String × Value)) (k : String) (v : Value) :
    alookup (dictSet d k v) k = some v := by
  unfold dictSet
  by_cases h : k ∈ d.map Prod.fst
  · rw [if_pos h]; exact alookup_update_self d h
  · rw [if_neg h]; exact alookup_append_right d h

lemma alookup_dictSet_ne (d : List (String × Value)) (k k' : String) (v : Value)
    (hne : k' ≠ k) : alookup (dictSet d k v) k' = alookup d k' := by
  unfold dictSet
  by_cases h : k ∈ d.map Prod.fst
  · rw [if_pos h]; exact alookup_update_ne hne d
  · rw [if_neg h]; exact alookup_append_ne hne d

lemma ratTrunc_mkRat_one (n : Int) : ratTrunc (mkRat n 1) = n := by
  unfold ratTrunc
  rw [Rat.mkRat_one, Rat.num_intCast, Rat.den_intCast]
  simp

lemma processFilters_spec (config : Config) (M : Mappings) (nmd : Nat → String)
    (fz : String → Option String) :
    ∀ (raws : List Value) (i : Nat),
      processFilters config M nmd fz i raws =
        (raws.filterMap (okFilter config M nmd fz),
         ((raws.enumFrom i).map fun p => perCandErrs config M nmd fz p.1 p.2).flatten) := by
  intro raws
  induction raws with
  | nil => intro i; rfl
  | cons c rest ih =>
    intro i
    show (let tail := processFilters config M nmd fz (i + 1) rest
          match processCandidate config M nmd fz c with
          | .error m =>
            (tail.1, ("Filter " ++ toString (i + 1) ++ ": Validation exception - " ++ m) :: tail.2)
          | .ok nf =>
            let fe := validate_filter nf config
            if fe.isEmpty then (nf :: tail.1, tail.2)
            else (tail.1, fe.map (fun e => "Filter " ++ toString (i + 1) ++ ": " ++ e) ++ tail.2)) = _
    rw [show processFilters config M nmd fz (i + 1) rest =
          (rest.filterMap (okFilter config M nmd fz),
           ((rest.enumFrom (i + 1)).map fun p => perCandErrs config M nmd fz p.1 p.2).flatten)
        from ih (i + 1)]
    rw [List.enumFrom_cons]
    simp only [List.map_cons, List.flatten_cons, List.filterMap_cons]
    unfold okFilter perCandErrs
    cases hpc : processCandidate config M nmd fz c with
    | error m => simp
    | ok nf =>
      by_cases hfe : (validate_filter nf config).isEmpty = true
      · simp [hfe, List.isEmpty_iff.mp hfe]
      · simp [hfe]

lemma append_ne_append (A B x y : String) (n : Nat)
    (hA : n < A.data.length) (hB : n < B.data.length)
    (hne : A.data[n]? ≠ B.data[n]?) : A ++ x ≠ B ++ y := by
  intro he
  have hd : (A ++ x).data[n]? = (B ++ y).data[n]? := by rw [he]
  rw [String.data_append, String.data_append] at hd
  rw [List.getElem?_append_left hA, List.getElem?_append_left hB] at hd
  exact hne hd

lemma list_append_ne (A B x y : List Char) (n : Nat)
    (hA : n < A.length) (hB : n < B.length)
    (hne : A[n]? ≠ B[n]?) : A ++ x ≠ B ++ y := by
  intro he
  have hd : (A ++ x)[n]? = (B ++ y)[n]? := by rw [he]
  rw [List.getElem?_append_left hA, List.getElem?_append_left hB] at hd
  exact hne hd

lemma opTypeMsg_ne_betweenMsg (a b c : String) :
    "Operator '" ++ "between" ++ "' is not valid for field '" ++ a ++ "' of type '" ++ b ++ "'"
      ≠ "Operator 'between' requires a list of two values for field: " ++ c := by
  intro he
  have hd := congrArg (fun s : String => s.data[19]?) he
  simp only [String.data_append] at hd
  rw [show "Operator '".data ++ "between".data ++ "' is not valid for field '".data
        = "Operator 'between' is not valid for field '".data by decide] at hd
  have hL : (19 : Nat) < "Operator 'between' is not valid for field '".data.length := by decide
  have h1 : (19 : Nat) <
      ("Operator 'between' is not valid for field '".data ++ a.data).length := by
    rw [List.length_append]; omega
  have h2 : (19 : Nat) <
      (("Operator 'between' is not valid for field '".data ++ a.data)
        ++ "' of type '".data).length := by
    rw [List.length_append]; omega
  have h3 : (19 : Nat) <
      ((("Operator 'between' is not valid for field '".data ++ a.data)
        ++ "' of type '".data) ++ b.data).length := by
    rw [List.length_append]; omega
  rw [List.getElem?_append_left h3, List.getElem?_append_left h2,
      List.getElem?_append_left h1, List.getElem?_append_left hL,
      List.getElem?_append_left
        (show (19 : Nat) <
          "Operator 'between' requires a list of two values for field: ".data.length
         by decide)] at hd
  exact absurd hd (by decide)

lemma alookup_mem {β : Type} :
    ∀ (l : List (String × β)) (k : String) (w : β),
      alookup l k = some w → ∃ kk, (kk, w) ∈ l := by
  intro l
  induction l with
  | nil => intro k w h; cases h
  | cons p t ih =>
    intro k w h
    rcases p with ⟨k1, v1⟩
    rw [alookup_cons] at h
    by_cases hk : k = k1
    · rw [if_pos hk] at h
      injection h with h2
      exact ⟨k1, by rw [h2]; exact List.mem_cons_self _ _⟩
    · rw [if_neg hk] at h
      obtain ⟨kk, hm⟩ := ih k w h
      exact ⟨kk, List.mem_cons_of_mem _ hm⟩

lemma countryScan_mem :
    ∀ (tbl : List (String × String)) (v : List Char) (w : String),
      countryScan tbl v = some w → ∃ k, (k, w) ∈ tbl := by
  intro tbl
  induction tbl with
  | nil => intro v w h; cases h
  | cons p t ih =>
    intro v w h
    rcases p with ⟨k1, w1⟩
    unfold countryScan at h
    by_cases hs : isSubB (lowerList k1.data) v = true
    · rw [if_pos hs] at h
      injection h with h2
      exact ⟨k1, by rw [h2]; exact List.mem_cons_self _ _⟩
    · rw [if_neg hs] at h
      obtain ⟨k, hm⟩ := ih v w h
      exact ⟨k, List.mem_cons_of_mem _ hm⟩

lemma cityScan_mem :
    ∀ (tbl : List (String × String)) (v : List Char) (w : String),
      cityScan tbl v = some w → ∃ k, (k, w) ∈ tbl := by
  intro tbl
  induction tbl with
  | nil => intro v w h; cases h
  | cons p t ih =>
    intro v w h
    rcases p with ⟨k1, w1⟩
    unfold cityScan at h
    by_cases hs : (isSubB (lowerList k1.data) v || isSubB v (lowerList k1.data)) = true
    · rw [if_pos hs] at h
      injection h with h2
      exact ⟨k1, by rw [h2]; exact List.mem_cons_self _ _⟩
    · rw [if_neg hs] at h
      obtain ⟨k, hm⟩ := ih v w h
      exact ⟨k, List.mem_cons_of_mem _ hm⟩

lemma numericPhase_other {v : Value} {t : String}
    (hti : t ≠ "integer") (htf : t ≠ "float") : numericPhase v t = v := by
  unfold numericPhase
  rw [if_neg hti, if_neg htf]

lemma gender_value_fixed (M : Mappings) (nmd : Nat → String) (fz : String → Option String)
    {field w : String} (t : String) (hf : field = "gender")
    (h1 : pyStrip w = w) (h2 : alookup M.gender_mappings (lowerStr w) = some w) :
    normalize_value M nmd fz field (.vstr w) t = .vstr w := by
  subst hf
  show normStr M nmd fz "gender" ⟨pyStripList w.data⟩ t = .vstr w
  rw [show (⟨pyStripList w.data⟩ : String) = w from h1]
  unfold normStr
  rw [if_pos rfl, h2]

lemma country_value_fixed (M : Mappings) (nmd : Nat → String) (fz : String → Option String)
    {field w : String} (t : String) (hf : field = "country")
    (h1 : pyStrip w = w) (h2 : countryScan M.country_mappings (lowerList w.data) = some w) :
    normalize_value M nmd fz field (.vstr w) t = .vstr w := by
  subst hf
  show normStr M nmd fz "country" ⟨pyStripList w.data⟩ t = .vstr w
  rw [show (⟨pyStripList w.data⟩ : String) = w from h1]
  unfold normStr
  rw [if_neg (show ¬ (("country" : String) = "gender") by decide)]
  rw [if_pos rfl, h2]

lemma city_value_fixed (M : Mappings) (nmd : Nat → String) (fz : String → Option String)
    {field w : String} (t : String) (hf : field = "city")
    (h1 : pyStrip w = w) (h2 : cityScan M.city_mappings (lowerList w.data) = some w) :
    normalize_value M nmd fz field (.vstr w) t = .vstr w := by
  subst hf
  show normStr M nmd fz "city" ⟨pyStripList w.data⟩ t = .vstr w
  rw [show (⟨pyStripList w.data⟩ : String) = w from h1]
  unfold normStr
  rw [if_neg (show ¬ (("city" : String) = "gender") by decide)]
  rw [if_neg (show ¬ (("city" : String) = "country") by decide)]
  rw [if_pos rfl, h2]

lemma city_value_inert (M : Mappings) (nmd : Nat → String) (fz : String → Option String)
    {field w : String} (t : String) (hf : field = "city")
    (h1 : pyStrip w = w) (h2 : cityScan M.city_mappings (lowerList w.data) = none)
    (h3 : alookup M.boolean_mappings (lowerStr w) = none)
    (h4 : parsePyFloat w = none)
    (h5 : parse_date M nmd fz w = w) :
    normalize_value M nmd fz field (.vstr w) t = .vstr w := by
  subst hf
  show normStr M nmd fz "city" ⟨pyStripList w.data⟩ t = .vstr w
  rw [show (⟨pyStripList w.data⟩ : String) = w from h1]
  unfold normStr
  rw [if_neg (show ¬ (("city" : String) = "gender") by decide)]
  rw [if_neg (show ¬ (("city" : String) = "country") by decide)]
  rw [if_pos rfl, h2]
  rw [show (if t = "boolean" then alookup M.boolean_mappings (lowerStr w) else none) = none by
    by_cases hb : t = "boolean"
    · rw [if_pos hb]; exact h3
    · rw [if_neg hb]]
  by_cases hd : t = "date"
  · rw [if_pos hd, h5]
  · rw [if_neg hd]
    by_cases hti : t = "integer"
    · subst hti
      show (match parsePyFloat w with
            | some q => Value.vint (ratTrunc q)
            | none => Value.vstr w) = .vstr w
      rw [h4]
    · by_cases htf : t = "float"
      · subst htf
        show (match parsePyFloat w with
              | some q => Value.vfloat q
              | none => Value.vstr w) = .vstr w
        rw [h4]
      · exact numericPhase_other hti htf

lemma date_output_fixed (M : Mappings) (nmd : Nat → String) (fz : String → Option String)
    {w : String} (field : String) (hok : DateOutOK M nmd fz w) :
    normalize_value M nmd fz field (.vstr w) "date" = .vstr w := by
  obtain ⟨h1, h2, h3, h4, h5⟩ := hok
  show normStr M nmd fz field ⟨pyStripList w.data⟩ "date" = .vstr w
  rw [show (⟨pyStripList w.data⟩ : String) = w from h1]
  unfold normStr
  rw [show (if field = "gender" then alookup M.gender_mappings (lowerStr w) else none) = none by
    by_cases hf : field = "gender"
    · rw [if_pos hf]; exact h2
    · rw [if_neg hf]]
  rw [show (if field = "country" then countryScan M.country_mappings (lowerList w.data) else none)
        = none by
    by_cases hf : field = "country"
    · rw [if_pos hf]; exact h3
    · rw [if_neg hf]]
  rw [show (if field = "city" then cityScan M.city_mappings (lowerList w.data) else none)
        = none by
    by_cases hf : field = "city"
    · rw [if_pos hf]; exact h4
    · rw [if_neg hf]]
  rw [if_neg (show ¬ (("date" : String) = "boolean") by decide)]
  rw [if_pos rfl, h5]

lemma passthrough_replay (M : Mappings) (nmd : Nat → String) (fz : String → Option String)
    {field s t : String}
    (h1 : pyStrip s = s)
    (hg : (if field = "gender" then alookup M.gender_mappings (lowerStr s) else none) = none)
    (hc : (if field = "country" then countryScan M.country_mappings (lowerList s.data)
           else none) = none)
    (hcity : (if field = "city" then cityScan M.city_mappings (lowerList s.data)
              else none) = none)
    (hb : (if t = "boolean" then alookup M.boolean_mappings (lowerStr s) else none) = none)
    (hd : t ≠ "date")
    (hnum : numericPhase (.vstr s) t = .vstr s) :
    normalize_value M nmd fz field (.vstr s) t = .vstr s := by
  show normStr M nmd fz field ⟨pyStripList s.data⟩ t = .vstr s
  rw [show (⟨pyStripList s.data⟩ : String) = s from h1]
  unfold normStr
  rw [hg, hc, hcity, hb, if_neg hd]
  exact hnum

lemma date_replay (M : Mappings) (nmd : Nat → String) (fz : String → Option String)
    {field s : String}
    (h1 : pyStrip s = s)
    (hg : (if field = "gender" then alookup M.gender_mappings (lowerStr s) else none) = none)
    (hc : (if field = "country" then countryScan M.country_mappings (lowerList s.data)
           else none) = none)
    (hcity : (if field = "city" then cityScan M.city_mappings (lowerList s.data)
              else none) = none)
    (hpd : parse_date M nmd fz s = s) :
    normalize_value M nmd fz field (.vstr s) "date" = .vstr s := by
  show normStr M nmd fz field ⟨pyStripList s.data⟩ "date" = .vstr s
  rw [show (⟨pyStripList s.data⟩ : String) = s from h1]
  unfold normStr
  rw [hg, hc, hcity]
  rw [if_neg (show ¬ (("date" : String) = "boolean") by decide)]
  rw [if_pos rfl, hpd]

lemma idem_nonstr (M : Mappings) (nmd : Nat → String) (fz : String → Option String)
    (field t : String) :
    ∀ v : Value, (∀ s, v ≠ .vstr s) →
      normalize_value M nmd fz field (normalize_value M nmd fz field v t) t
        = normalize_value M nmd fz field v t := by
  intro v hv
  by_cases hti : t = "integer"
  · subst hti
    cases v with
    | vstr s => exact absurd rfl (hv s)
    | vbool b => rfl
    | vnone => rfl
    | vlist l => rfl
    | vdict d => rfl
    | vint n =>
      show Value.vint (ratTrunc (mkRat (ratTrunc (mkRat n 1)) 1))
        = Value.vint (ratTrunc (mkRat n 1))
      exact congrArg Value.vint (ratTrunc_mkRat_one _)
    | vfloat q =>
      show Value.vint (ratTrunc (mkRat (ratTrunc q) 1)) = Value.vint (ratTrunc q)
      exact congrArg Value.vint (ratTrunc_mkRat_one _)
  · by_cases htf : t = "float"
    · subst htf
      cases v with
      | vstr s => exact absurd rfl (hv s)
      | vbool b => rfl
      | vnone => rfl
      | vlist l => rfl
      | vdict d => rfl
      | vint n => rfl
      | vfloat q => rfl
    · have h0 : numericPhase v t = v := numericPhase_other hti htf
      cases v with
      | vstr s => exact absurd rfl (hv s)
      | vbool b =>
        have hInner : normalize_value M nmd fz field (.vbool b) t = .vbool b := h0
        rw [hInner]; exact hInner
      | vnone =>
        have hInner : normalize_value M nmd fz field .vnone t = .vnone := h0
        rw [hInner]; exact hInner
      | vlist l =>
        have hInner : normalize_value M nmd fz field (.vlist l) t = .vlist l := h0
        rw [hInner]; exact hInner
      | vdict d =>
        have hInner : normalize_value M nmd fz field (.vdict d) t = .vdict d := h0
        rw [hInner]; exact hInner
      | vint n =>
        have hInner : normalize_value M nmd fz field (.vint n) t = .vint n := h0
        rw [hInner]; exact hInner
      | vfloat q =>
        have hInner : normalize_value M nmd fz field (.vfloat q) t = .vfloat q := h0
        rw [hInner]; exact hInner

lemma mk_data_eta (s : String) : (⟨s.data⟩ : String) = s := by
  cases s
  rfl

lemma idem_str (M : Mappings) (nmd : Nat → String) (fz : String → Option String)
    (hM : MappingsStable M nmd fz) (field t s : String) (hstrip : pyStrip s = s) :
    normalize_value M nmd fz field (normStr M nmd fz field s t) t
      = normStr M nmd fz field s t := by
  obtain ⟨hG, hC, hCity, hNmd, hFz, hFail⟩ := hM
  cases hg : (if field = "gender" then alookup M.gender_mappings (lowerStr s) else none) with
  | some w =>
    have hout : normStr M nmd fz field s t = .vstr w := by
      unfold normStr; rw [hg]
    have hf : field = "gender" := by
      by_contra hne
      rw [if_neg hne] at hg
      cases hg
    have hlook : alookup M.gender_mappings (lowerStr s) = some w := by
      rw [if_pos hf] at hg; exact hg
    obtain ⟨k, hk⟩ := alookup_mem _ _ _ hlook
    obtain ⟨hw1, hw2⟩ := hG (k, w) hk
    rw [hout]
    exact gender_value_fixed M nmd fz t hf hw1 hw2
  | none =>
    cases hc : (if field = "country" then countryScan M.country_mappings (lowerList s.data)
                else none) with
    | some w =>
      have hout : normStr M nmd fz field s t = .vstr w := by
        unfold normStr; rw [hg, hc]
      have hf : field = "country" := by
        by_contra hne
        rw [if_neg hne] at hc
        cases hc
      have hscan : countryScan M.country_mappings (lowerList s.data) = some w := by
        rw [if_pos hf] at hc; exact hc
      obtain ⟨k, hk⟩ := countryScan_mem _ _ _ hscan
      obtain ⟨hw1, hw2⟩ := hC (k, w) hk
      rw [hout]
      exact country_value_fixed M nmd fz t hf hw1 hw2
    | none =>
      cases hcy : (if field = "city" then cityScan M.city_mappings (lowerList s.data)
                   else none) with
      | some w =>
        have hout : normStr M nmd fz field s t = .vstr w := by
          unfold normStr; rw [hg, hc, hcy]
        have hf : field = "city" := by
          by_contra hne
          rw [if_neg hne] at hcy
          cases hcy
        have hscan : cityScan M.city_mappings (lowerList s.data) = some w := by
          rw [if_pos hf] at hcy; exact hcy
        obtain ⟨k, hk⟩ := cityScan_mem _ _ _ hscan
        obtain ⟨hw1, hw2⟩ := hCity (k, w) hk
        rw [hout]
        rcases hw2 with h2 | ⟨h2, h3, h4, h5⟩
        · exact city_value_fixed M nmd fz t hf hw1 h2
        · exact city_value_inert M nmd fz t hf hw1 h2 h3 h4 h5
      | none =>
        cases hb : (if t = "boolean" then alookup M.boolean_mappings (lowerStr s) else none) with
        | some bval =>
          have hout : normStr M nmd fz field s t = .vbool bval := by
            unfold normStr; rw [hg, hc, hcy, hb]
          have ht : t = "boolean" := by
            by_contra hne
            rw [if_neg hne] at hb
            cases hb
          rw [hout]
          subst ht
          rfl
        | none =>
          by_cases hd : t = "date"
          · subst hd
            have hout : normStr M nmd fz field s "date" = .vstr (parse_date M nmd fz s) := by
              unfold normStr; rw [hg, hc, hcy, hb, if_pos rfl]
            rw [hout]
            have hds : pyStripList s.data = s.data := congrArg String.data hstrip
            cases hrel : (if isSubB ['l', 'a', 's', 't'] (lowerList (pyStripList s.data))
                           then daysScan (pyStripList s.data) else none) with
            | some n =>
              have hpd : parse_date M nmd fz s = nmd n := by
                show (match (if isSubB ['l', 'a', 's', 't'] (lowerList (pyStripList s.data))
                              then daysScan (pyStripList s.data) else none) with
                      | some n => nmd n
                      | none =>
                        match fz ⟨monthSubst M (pyStripList s.data)⟩ with
                        | some d => d
                        | none => (⟨monthSubst M (pyStripList s.data)⟩ : String)) = _
                rw [hrel]
              rw [hpd]
              exact date_output_fixed M nmd fz field (hNmd n)
            | none =>
              cases hfz2 : fz ⟨monthSubst M (pyStripList s.data)⟩ with
              | some d =>
                have hpd : parse_date M nmd fz s = d := by
                  show (match (if isSubB ['l', 'a', 's', 't'] (lowerList (pyStripList s.data))
                                then daysScan (pyStripList s.data) else none) with
                        | some n => nmd n
                        | none =>
                          match fz ⟨monthSubst M (pyStripList s.data)⟩ with
                          | some d => d
                          | none => (⟨monthSubst M (pyStripList s.data)⟩ : String)) = _
                  rw [hrel, hfz2]
                rw [hpd]
                exact date_output_fixed M nmd fz field (hFz _ d hfz2)
              | none =>
                have hms : monthSubst M (pyStripList s.data) = pyStripList s.data :=
                  hFail _ hfz2
                have hpd : parse_date M nmd fz s = s := by
                  show (match (if isSubB ['l', 'a', 's', 't'] (lowerList (pyStripList s.data))
                                then daysScan (pyStripList s.data) else none) with
                        | some n => nmd n
                        | none =>
                          match fz ⟨monthSubst M (pyStripList s.data)⟩ with
                          | some d => d
                          | none => (⟨monthSubst M (pyStripList s.data)⟩ : String)) = _
                  rw [hrel, hfz2, hms, hds]
                rw [hpd]
                exact date_replay M nmd fz hstrip hg hc hcy hpd
          · have hout : normStr M nmd fz field s t = numericPhase (.vstr s) t := by
              unfold normStr; rw [hg, hc, hcy, hb, if_neg hd]
            rw [hout]
            by_cases hti : t = "integer"
            · subst hti
              cases hq : parsePyFloat s with
              | some q =>
                have hnum : numericPhase (.vstr s) "integer" = .vint (ratTrunc q) := by
                  show (match parsePyFloat s with
                        | some q => Value.vint (ratTrunc q)
                        | none => Value.vstr s) = _
                  rw [hq]
                rw [hnum]
                show Value.vint (ratTrunc (mkRat (ratTrunc q) 1)) = Value.vint (ratTrunc q)
                exact congrArg Value.vint (ratTrunc_mkRat_one _)
              | none =>
                have hnum : numericPhase (.vstr s) "integer" = .vstr s := by
                  show (match parsePyFloat s with
                        | some q => Value.vint (ratTrunc q)
                        | none => Value.vstr s) = _
                  rw [hq]
                rw [hnum]
                exact passthrough_replay M nmd fz hstrip hg hc hcy hb (by decide) hnum
            · by_cases htf : t = "float"
              · subst htf
                cases hq : parsePyFloat s with
                | some q =>
                  have hnum : numericPhase (.vstr s) "float" = .vfloat q := by
                    show (match parsePyFloat s with
                          | some q => Value.vfloat q
                          | none => Value.vstr s) = _
                    rw [hq]
                  rw [hnum]
                  rfl
                | none =>
                  have hnum : numericPhase (.vstr s) "float" = .vstr s := by
                    show (match parsePyFloat s with
                          | some q => Value.vfloat q
                          | none => Value.vstr s) = _
                    rw [hq]
                  rw [hnum]
                  exact passthrough_replay M nmd fz hstrip hg hc hcy hb (by decide) hnum
              · have hnum : numericPhase (.vstr s) t = .vstr s := numericPhase_other hti htf
                rw [hnum]
                exact passthrough_replay M nmd fz hstrip hg hc hcy hb hd hnum

lemma validation_node_eq (config : Config) (M : Mappings) (nmd : Nat → String)
    (fz : String → Option String) (state : List (String × Value))
    (raws : List Value) (errs0 : List Value)
    (hr : dictGet state "raw_filters" (.vlist []) = .vlist raws)
    (he : dictGet state "errors" (.vlist []) = .vlist errs0) :
    validation_node config M nmd fz state =
      some (dictSet (dictSet state "validated_filters"
              (.vlist ((raws.filterMap (okFilter config M nmd fz)).map filterToValue)))
            "errors"
            (.vlist (errs0 ++ (((raws.enumFrom 0).map
               (fun p => perCandErrs config M nmd fz p.1 p.2)).flatten).map Value.vstr))) := by
  unfold validation_node
  rw [hr, he]
  show some (dictSet (dictSet state "validated_filters"
        (.vlist ((processFilters config M nmd fz 0 raws).1.map filterToValue)))
      "errors"
      (.vlist (errs0 ++ (processFilters config M nmd fz 0 raws).2.map Value.vstr))) = _
  rw [processFilters_spec]

/-! Claim theorems. -/

/-- C4: for every filter whose field is not a member of the catalog's
full field set, regardless of its operator and value, the validator
returns exactly the one error message `"Unsupported field: <field>"`
and performs no further checks on that filter. -/
theorem C4_unsupported_field_short_circuits (config : Config) (f : NormFilter)
    (h : f.field ∉ get_all_supported_fields config) :
    validate_filter f config = ["Unsupported field: " ++ f.field] := by
  unfold validate_filter
  rw [if_neg h]

/-- Witness for C4 at a concrete unsupported field. -/
theorem C4_unsupported_field_short_circuits_witness :
    "email_open_rate" ∉ get_all_supported_fields demoConfig ∧
    validate_filter ⟨"email_open_rate", "=", .vstr "10%"⟩ demoConfig
      = ["Unsupported field: email_open_rate"] :=
  ⟨by decide,
   C4_unsupported_field_short_circuits demoConfig
     ⟨"email_open_rate", "=", .vstr "10%"⟩ (by decide)⟩

/-- C8 counterexample: `normalize_operator` does not return an
unmatched operator unchanged — it returns it stripped of surrounding
whitespace (`" foo "` comes back as `"foo"`). -/
theorem C8_counterexample :
    alookup operator_aliases (lowerStr (pyStrip " foo ")) = none ∧
    normalize_operator " foo " = "foo" ∧ (" foo " : String) ≠ "foo" := by
  exact ⟨by decide, by decide, by decide⟩

/-- C8 as amended: every alias in the table canonicalizes to its
canonical form (lookup over the trimmed, lowercased input), and every
operator string matching no alias is returned whitespace-trimmed but
otherwise unchanged (original casing preserved). -/
theorem C8_amended_operator_aliases :
    (∀ p ∈ operator_aliases, normalize_operator p.1 = p.2) ∧
    ∀ s : String, alookup operator_aliases (lowerStr (pyStrip s)) = none →
      normalize_operator s = pyStrip s := by
  constructor
  · decide
  · intro s h
    show (alookup operator_aliases (lowerStr (pyStrip s))).getD (pyStrip s) = pyStrip s
    rw [h]
    rfl

/-- Witness for C8: an alias hit and a cased pass-through miss. -/
theorem C8_amended_operator_aliases_witness :
    normalize_operator "in range" = "between" ∧ normalize_operator "FOO" = pyStrip "FOO" :=
  ⟨C8_amended_operator_aliases.1 ("in range", "between") (by decide),
   C8_amended_operator_aliases.2 "FOO" (by decide)⟩

/-- C5 counterexample: a `between` filter with a scalar value whose
field is not in the catalog gets only the unsupported-field error, so
the validator does not always include a structural error for scalar
`between` values. -/
theorem C5_counterexample :
    isPair (Value.vint 5) = false ∧
    validate_filter ⟨"bogus_field", "between", .vint 5⟩ demoConfig
      = ["Unsupported field: bogus_field"] ∧
    "Operator 'between' requires a list of two values for field: bogus_field"
      ∉ validate_filter ⟨"bogus_field", "between", .vint 5⟩ demoConfig := by
  refine ⟨rfl, by decide, by decide⟩

/-- C5 as amended: for a filter whose field is in the catalog and
whose operator is the range operator `between`, the validator's
result contains the structural error exactly when the value is not a
two-element list. -/
theorem C5_amended_between_structural (config : Config) (f : NormFilter)
    (hf : f.field ∈ get_all_supported_fields config)
    (hop : f.operator = "between") :
    ("Operator 'between' requires a list of two values for field: " ++ f.field)
        ∈ validate_filter f config ↔ isPair f.value = false := by
  obtain ⟨ff, fop, fv⟩ := f
  simp only at hf hop
  subst hop
  unfold validate_filter
  simp only
  rw [if_pos hf]
  rw [List.mem_append, List.mem_append, List.mem_append]
  constructor
  · rintro (((h1 | h2) | h3) | h4)
    · revert h1
      split
      · intro h1; simp at h1
      · intro h1
        rw [List.mem_singleton] at h1
        exact absurd h1 (append_ne_append
          "Operator 'between' requires a list of two values for field: "
          "Unsupported operator: " ff "between" 0 (by decide) (by decide) (by decide))
    · revert h2
      split
      · intro h2
        split at h2
        · simp at h2
        · split at h2
          · simp at h2
          · rw [List.mem_singleton] at h2
            exact absurd h2.symm (opTypeMsg_ne_betweenMsg ff _ ff)
      · intro h2; simp at h2
    · revert h3
      split
      · intro h3
        rw [List.mem_singleton] at h3
        exact absurd h3 (append_ne_append
          "Operator 'between' requires a list of two values for field: "
          "Missing value for field: " ff ff 0 (by decide) (by decide) (by decide))
      · intro h3; simp at h3
    · revert h4
      split
      · intro h4
        rename_i hcond
        simp only [Bool.and_eq_true, Bool.not_eq_true'] at hcond
        exact hcond.2
      · intro h4; simp at h4
  · intro hpair
    refine Or.inr ?_
    split
    · exact List.mem_singleton.mpr rfl
    · rename_i hcond
      rw [Bool.and_eq_true] at hcond
      exact absurd ⟨by simp, by simp [hpair]⟩ hcond

/-- Witness for C5 as amended at a concrete scalar `between` filter. -/
theorem C5_amended_between_structural_witness :
    ("Operator 'between' requires a list of two values for field: " ++ "store_rating")
      ∈ validate_filter ⟨"store_rating", "between", .vint 5⟩ demoConfig :=
  (C5_amended_between_structural demoConfig ⟨"store_rating", "between", .vint 5⟩
    (by decide) rfl).mpr rfl

/-- C3 counterexample: the claimed either-direction substring match
predicts a replacement for value `"saudi"` under a table with key
`"saudi arabia"` (the value is a substring of the key), but
`normalize_value` matches only keys that are substrings of the value
and returns the value unchanged. -/
theorem C3_counterexample :
    countryScanSpec countryTableCx.country_mappings (lowerList (pyStripList "saudi".data))
      = some "Saudi Arabia" ∧
    normalize_value countryTableCx nmdConst fzNone "country" (.vstr "saudi") "string"
      = .vstr "saudi" ∧
    Value.vstr "saudi" ≠ Value.vstr "Saudi Arabia" := by
  refine ⟨by decide, rfl, ?_⟩
  intro h
  injection h with h2
  exact absurd h2 (by decide)

/-- C3 as amended: for field `country`, `normalize_value` scans
`country_mappings` and replaces the value with the mapped value of
the first entry whose key is a case-insensitive substring of the
value (one direction only), first match in iteration order winning;
when no key is such a substring the country table contributes
nothing (the result is as with an empty country table). -/
theorem C3_amended_country_first_match (M : Mappings) (nmd : Nat → String)
    (fz : String → Option String) (s : String) (t : String) :
    (∀ w, countryScan M.country_mappings (lowerList (pyStripList s.data)) = some w →
       normalize_value M nmd fz "country" (.vstr s) t = .vstr w) ∧
    (countryScan M.country_mappings (lowerList (pyStripList s.data)) = none →
       normalize_value M nmd fz "country" (.vstr s) t =
         normalize_value { M with country_mappings := [] } nmd fz "country" (.vstr s) t) := by
  constructor
  · intro w hw
    show normStr M nmd fz "country" ⟨pyStripList s.data⟩ t = .vstr w
    unfold normStr
    rw [if_neg (show ¬ (("country" : String) = "gender") by decide)]
    rw [if_pos rfl]
    rw [show lowerList (String.mk (pyStripList s.data)).data
          = lowerList (pyStripList s.data) from rfl]
    rw [hw]
  · intro hw
    show normStr M nmd fz "country" ⟨pyStripList s.data⟩ t
       = normStr { M with country_mappings := [] } nmd fz "country" ⟨pyStripList s.data⟩ t
    unfold normStr
    rw [show lowerList (String.mk (pyStripList s.data)).data
          = lowerList (pyStripList s.data) from rfl]
    rw [hw]
    rfl

/-- Witness for C3 as amended: a one-direction hit and a miss. -/
theorem C3_amended_country_first_match_witness :
    normalize_value demoMappings nmdConst fzNone "country" (.vstr " SAUDI arabia ") "string"
      = .vstr "Saudi Arabia" ∧
    normalize_value demoMappings nmdConst fzNone "country" (.vstr "mars") "string"
      = normalize_value { demoMappings with country_mappings := [] } nmdConst fzNone
          "country" (.vstr "mars") "string" :=
  ⟨(C3_amended_country_first_match demoMappings nmdConst fzNone " SAUDI arabia " "string").1
     "Saudi Arabia" (by decide),
   (C3_amended_country_first_match demoMappings nmdConst fzNone "mars" "string").2
     (by decide)⟩

/-- C7 counterexample: on parse failure the value is not returned
verbatim — a string value is returned whitespace-trimmed (`" abc "`
comes back as `"abc"`). -/
theorem C7_counterexample :
    parsePyFloat " abc " = none ∧
    normalize_value demoMappings nmdConst fzNone "total_orders" (.vstr " abc ") "integer"
      = .vstr "abc" ∧
    Value.vstr "abc" ≠ Value.vstr " abc " := by
  refine ⟨by decide, rfl, ?_⟩
  intro h
  injection h with h2
  exact absurd h2 (by decide)

/-- C7 as amended: for integer-typed fields `normalize_value` coerces
non-boolean values via `int(float(value))` (`"10"` to `10`, `10.5`
to `10` by float-then-int truncation), for float-typed fields
`"100.5"` yields `100.5`, and on parse failure the value is returned
without error — whitespace-trimmed for strings, unchanged
otherwise.  (The field hypotheses keep clear of the gender/country/
city mapping tables, which are consulted first.) -/
theorem C7_amended_numeric_coercion (M : Mappings) (nmd : Nat → String)
    (fz : String → Option String) (field : String)
    (h1 : field ≠ "gender") (h2 : field ≠ "country") (h3 : field ≠ "city") :
    normalize_value M nmd fz field (.vstr "10") "integer" = .vint 10 ∧
    mkRat 21 2 = (21 : ℚ) / 2 ∧
    normalize_value M nmd fz field (.vfloat (mkRat 21 2)) "integer" = .vint 10 ∧
    mkRat 201 2 = (201 : ℚ) / 2 ∧
    normalize_value M nmd fz field (.vstr "100.5") "float" = .vfloat (mkRat 201 2) ∧
    (∀ v : Value, pyFloat v = none →
       normalize_value M nmd fz field v "integer" = stripValue v) ∧
    (∀ v : Value, pyFloat v = none →
       normalize_value M nmd fz field v "float" = stripValue v) := by
  refine ⟨?_, by rw [Rat.mkRat_eq_div]; norm_num, ?_, by rw [Rat.mkRat_eq_div]; norm_num,
    ?_, ?_, ?_⟩
  · show normStr M nmd fz field ⟨pyStripList "10".data⟩ "integer" = .vint 10
    unfold normStr
    rw [if_neg h1, if_neg h2, if_neg h3]
    rfl
  · show numericPhase (.vfloat (mkRat 21 2)) "integer" = .vint 10
    rfl
  · show normStr M nmd fz field ⟨pyStripList "100.5".data⟩ "float" = .vfloat (mkRat 201 2)
    unfold normStr
    rw [if_neg h1, if_neg h2, if_neg h3]
    rfl
  · intro v hv
    cases v with
    | vstr s =>
      show normStr M nmd fz field ⟨pyStripList s.data⟩ "integer" = .vstr (pyStrip s)
      unfold normStr
      rw [if_neg h1, if_neg h2, if_neg h3]
      show numericPhase (.vstr ⟨pyStripList s.data⟩) "integer" = .vstr (pyStrip s)
      unfold numericPhase
      rw [if_pos rfl]
      have hv2 : parsePyFloat (pyStrip s) = none := by rw [parsePyFloat_strip]; exact hv
      show (match parsePyFloat (pyStrip s) with
            | some q => Value.vint (ratTrunc q)
            | none => Value.vstr ⟨pyStripList s.data⟩) = .vstr (pyStrip s)
      rw [hv2]
      rfl
    | vbool b => simp [pyFloat] at hv
    | vint n => simp [pyFloat] at hv
    | vfloat q => simp [pyFloat] at hv
    | vnone => rfl
    | vlist l => rfl
    | vdict d => rfl
  · intro v hv
    cases v with
    | vstr s =>
      show normStr M nmd fz field ⟨pyStripList s.data⟩ "float" = .vstr (pyStrip s)
      unfold normStr
      rw [if_neg h1, if_neg h2, if_neg h3]
      show numericPhase (.vstr ⟨pyStripList s.data⟩) "float" = .vstr (pyStrip s)
      unfold numericPhase
      rw [if_neg (show ¬ (("float" : String) = "integer") by decide), if_pos rfl]
      have hv2 : parsePyFloat (pyStrip s) = none := by rw [parsePyFloat_strip]; exact hv
      show (match parsePyFloat (pyStrip s) with
            | some q => Value.vfloat q
            | none => Value.vstr ⟨pyStripList s.data⟩) = .vstr (pyStrip s)
      rw [hv2]
      rfl
    | vbool b => simp [pyFloat] at hv
    | vint n => simp [pyFloat] at hv
    | vfloat q => simp [pyFloat] at hv
    | vnone => rfl
    | vlist l => rfl
    | vdict d => rfl

/-- Witness for C7 as amended at the spec's own sample values. -/
theorem C7_amended_numeric_coercion_witness :
    normalize_value demoMappings nmdConst fzNone "total_orders" (.vstr "10") "integer"
      = .vint 10 ∧
    normalize_value demoMappings nmdConst fzNone "total_orders" (.vfloat (mkRat 21 2)) "integer"
      = .vint 10 ∧
    normalize_value demoMappings nmdConst fzNone "total_sales" (.vstr "100.5") "float"
      = .vfloat (mkRat 201 2) ∧
    normalize_value demoMappings nmdConst fzNone "total_orders" (.vstr "abc") "integer"
      = stripValue (.vstr "abc") :=
  ⟨(C7_amended_numeric_coercion demoMappings nmdConst fzNone "total_orders"
      (by decide) (by decide) (by decide)).1,
   (C7_amended_numeric_coercion demoMappings nmdConst fzNone "total_orders"
      (by decide) (by decide) (by decide)).2.2.1,
   (C7_amended_numeric_coercion demoMappings nmdConst fzNone "total_sales"
      (by decide) (by decide) (by decide)).2.2.2.2.1,
   (C7_amended_numeric_coercion demoMappings nmdConst fzNone "total_orders"
      (by decide) (by decide) (by decide)).2.2.2.2.2.1 (.vstr "abc") (by decide)⟩

/-- C9 counterexample: an unparseable date is not returned as the
original input text verbatim — surrounding whitespace is stripped
(and month-name substitutions are kept), so `" notadate "` comes back
as `"notadate"`. -/
theorem C9_counterexample :
    (if isSubB ['l', 'a', 's', 't'] (lowerList (pyStripList " notadate ".data))
       then daysScan (pyStripList " notadate ".data) else none) = none ∧
    fzNone ⟨monthSubst demoMappings (pyStripList " notadate ".data)⟩ = none ∧
    parse_date demoMappings nmdConst fzNone " notadate " = "notadate" ∧
    ("notadate" : String) ≠ " notadate " := by
  refine ⟨by decide, rfl, by decide, by decide⟩

/-- C9 as amended: a date-typed text that is neither a recognized
relative phrase nor parseable by the fuzzy parser is returned as the
trimmed, month-name-substituted text instead of raising, and such a
nonempty string then passes an otherwise-valid filter's validation
unflagged. -/
theorem C9_amended_unparsed_date_passthrough (M : Mappings) (nmd : Nat → String)
    (fz : String → Option String) (s : String)
    (hrel : (if isSubB ['l', 'a', 's', 't'] (lowerList (pyStripList s.data))
               then daysScan (pyStripList s.data) else none) = none)
    (hfz : fz ⟨monthSubst M (pyStripList s.data)⟩ = none) :
    parse_date M nmd fz s = ⟨monthSubst M (pyStripList s.data)⟩ ∧
    ∀ (config : Config) (field op : String),
      field ∈ get_all_supported_fields config →
      op ∈ config.operators →
      alookup config.field_types field = some "date" →
      op ∈ (alookup config.valid_operators_per_type "date").getD [] →
      op ≠ "between" →
      isMissing (.vstr (parse_date M nmd fz s)) = false →
      validate_filter ⟨field, op, .vstr (parse_date M nmd fz s)⟩ config = [] := by
  have hpd : parse_date M nmd fz s = ⟨monthSubst M (pyStripList s.data)⟩ := by
    show (match (if isSubB ['l', 'a', 's', 't'] (lowerList (pyStripList s.data))
                   then daysScan (pyStripList s.data) else none) with
          | some n => nmd n
          | none =>
            match fz ⟨monthSubst M (pyStripList s.data)⟩ with
            | some d => d
            | none => (⟨monthSubst M (pyStripList s.data)⟩ : String)) = _
    rw [hrel, hfz]
  refine ⟨hpd, ?_⟩
  intro config field op hf hop hft hvalid hnb hmiss
  unfold validate_filter
  rw [if_pos hf]
  simp [hft, hop, hvalid, hmiss, hnb]

/-- C1: for every state whose `raw_filters` entry is a sequence (and
whose `errors` entry is a list), the orchestrator returns a state
rather than raising, its new error records are exactly the
concatenation of every candidate's contribution in order (so each
remaining candidate is still processed), and a candidate whose
processing raises contributes exactly the single record
`"Filter <i>: Validation exception - <message>"`. -/
theorem C1_validation_exceptions_contained (config : Config) (M : Mappings)
    (nmd : Nat → String) (fz : String → Option String)
    (state : List (String × Value)) (raws : List Value) (errs0 : List Value)
    (hr : dictGet state "raw_filters" (.vlist []) = .vlist raws)
    (he : dictGet state "errors" (.vlist []) = .vlist errs0) :
    (∃ out, validation_node config M nmd fz state = some out ∧
       alookup out "errors" = some (.vlist (errs0 ++
         (((raws.enumFrom 0).map
            (fun p => perCandErrs config M nmd fz p.1 p.2)).flatten).map Value.vstr))) ∧
    (∀ (j : Nat) (c : Value) (m : String),
       processCandidate config M nmd fz c = .error m →
       perCandErrs config M nmd fz j c
         = ["Filter " ++ toString (j + 1) ++ ": Validation exception - " ++ m]) := by
  constructor
  · refine ⟨_, validation_node_eq config M nmd fz state raws errs0 hr he, ?_⟩
    rw [alookup_dictSet_self]
  · intro j c m hc
    unfold perCandErrs
    rw [hc]

/-- Witness for C1: a non-dict candidate raises, is converted into
one exception record, and the batch still completes. -/
theorem C1_validation_exceptions_contained_witness :
    ∃ out, validation_node demoConfig demoMappings nmdConst fzNone
        [("raw_filters", .vlist [.vint 7]), ("errors", .vlist [])] = some out ∧
      alookup out "errors" = some (.vlist
        [.vstr "Filter 1: Validation exception - 'int' object has no attribute 'get'"]) := by
  obtain ⟨⟨out, hout, herr⟩, _⟩ :=
    C1_validation_exceptions_contained demoConfig demoMappings nmdConst fzNone
      [("raw_filters", .vlist [.vint 7]), ("errors", .vlist [])] [.vint 7] [] rfl rfl
  exact ⟨out, hout, by rw [herr]; rfl⟩

/-- C2: the orchestrator's validated output is exactly the list of
normalized forms of the candidates that produced zero validation
errors, in input order with rejected candidates omitted
(`filterMap`), and the error list is the concatenation of the
per-candidate error lists in discovery order. -/
theorem C2_validated_order_errors_order (config : Config) (M : Mappings)
    (nmd : Nat → String) (fz : String → Option String)
    (state : List (String × Value)) (raws : List Value) (errs0 : List Value)
    (hr : dictGet state "raw_filters" (.vlist []) = .vlist raws)
    (he : dictGet state "errors" (.vlist []) = .vlist errs0) :
    ∃ out, validation_node config M nmd fz state = some out ∧
      alookup out "validated_filters"
        = some (.vlist ((raws.filterMap (okFilter config M nmd fz)).map filterToValue)) ∧
      alookup out "errors" = some (.vlist (errs0 ++
        (((raws.enumFrom 0).map
           (fun p => perCandErrs config M nmd fz p.1 p.2)).flatten).map Value.vstr)) := by
  refine ⟨_, validation_node_eq config M nmd fz state raws errs0 hr he, ?_, ?_⟩
  · rw [alookup_dictSet_ne _ _ _ _ (by decide), alookup_dictSet_self]
  · rw [alookup_dictSet_self]

/-- Witness for C2: an invalid candidate is omitted and a later valid
candidate still appears, in input order, with the error recorded. -/
theorem C2_validated_order_errors_order_witness :
    ∃ out, validation_node demoConfig demoMappings nmdConst fzNone
        [("raw_filters", .vlist
           [.vdict [("field", .vstr "email_open_rate"), ("operator", .vstr "="),
                    ("value", .vstr "10%")],
            .vdict [("field", .vstr "sex"), ("operator", .vstr "is"),
                    ("value", .vstr "female")]]),
         ("errors", .vlist [])] = some out ∧
      alookup out "validated_filters" = some (.vlist
        [.vdict [("field", .vstr "gender"), ("operator", .vstr "="),
                 ("value", .vstr "Female")]]) ∧
      alookup out "errors" = some (.vlist
        [.vstr "Filter 1: Unsupported field: email_open_rate"]) := by
  obtain ⟨out, hout, hv, herr⟩ :=
    C2_validated_order_errors_order demoConfig demoMappings nmdConst fzNone
      [("raw_filters", .vlist
         [.vdict [("field", .vstr "email_open_rate"), ("operator", .vstr "="),
                  ("value", .vstr "10%")],
          .vdict [("field", .vstr "sex"), ("operator", .vstr "is"),
                  ("value", .vstr "female")]]),
       ("errors", .vlist [])] _ _ rfl rfl
  exact ⟨out, hout, by rw [hv]; rfl, by rw [herr]; rfl⟩

/-- C10: for every state whose `raw_filters` and `errors` entries are
lists, the orchestrator's output maps every key other than
`validated_filters` and `errors` to exactly the input state's value,
and the output `errors` list is the input's pre-existing errors
extended with a suffix rather than replaced. -/
theorem C10_frame_and_error_extension (config : Config) (M : Mappings)
    (nmd : Nat → String) (fz : String → Option String)
    (state : List (String × Value)) (raws : List Value) (errs0 : List Value)
    (hr : dictGet state "raw_filters" (.vlist []) = .vlist raws)
    (he : dictGet state "errors" (.vlist []) = .vlist errs0) :
    ∃ out, validation_node config M nmd fz state = some out ∧
      (∀ k, k ≠ "validated_filters" → k ≠ "errors" →
        alookup out k = alookup state k) ∧
      ∃ tail, alookup out "errors" = some (.vlist (errs0 ++ tail)) := by
  refine ⟨_, validation_node_eq config M nmd fz state raws errs0 hr he, ?_, ?_⟩
  · intro k h1 h2
    rw [alookup_dictSet_ne _ _ _ _ h2, alookup_dictSet_ne _ _ _ _ h1]
  · exact ⟨(((raws.enumFrom 0).map
       (fun p => perCandErrs config M nmd fz p.1 p.2)).flatten).map Value.vstr,
     by rw [alookup_dictSet_self]⟩

/-- Witness for C10: an unrelated key survives untouched and the
pre-existing error is still at the front. -/
theorem C10_frame_and_error_extension_witness :
    ∃ out, validation_node demoConfig demoMappings nmdConst fzNone
        [("prompt", .vstr "hello"), ("raw_filters", .vlist [.vnone]),
         ("errors", .vlist [.vstr "earlier"])] = some out ∧
      alookup out "prompt" = some (.vstr "hello") ∧
      ∃ tail, alookup out "errors" = some (.vlist ([.vstr "earlier"] ++ tail)) := by
  obtain ⟨out, hout, hframe, tail, herr⟩ :=
    C10_frame_and_error_extension demoConfig demoMappings nmdConst fzNone
      [("prompt", .vstr "hello"), ("raw_filters", .vlist [.vnone]),
       ("errors", .vlist [.vstr "earlier"])] [.vnone] [.vstr "earlier"] rfl rfl
  refine ⟨out, hout, ?_, ⟨tail, herr⟩⟩
  rw [hframe "prompt" (by decide) (by decide)]
  rfl

/-- C6: `normalize_value` is idempotent — normalizing an
already-normalized value is a no-op for every field, value, and
field type.  The hypotheses are re-normalization stability
conditions on the static mapping tables and on the external date
collaborators (mapped values are trimmed and re-map to themselves;
formatted dates re-parse to themselves; substitution-changed strings
do not fail the fuzzy parse), which the repository's alias data
satisfies. -/
theorem C6_normalize_value_idempotent (M : Mappings) (nmd : Nat → String)
    (fz : String → Option String) (hM : MappingsStable M nmd fz)
    (field : String) (v : Value) (t : String) :
    normalize_value M nmd fz field (normalize_value M nmd fz field v t) t
      = normalize_value M nmd fz field v t := by
  cases v with
  | vstr s0 =>
    exact idem_str M nmd fz hM field t ⟨pyStripList s0.data⟩ (pyStrip_mk_strip s0.data)
  | vnone => exact idem_nonstr M nmd fz field t .vnone (fun s h => nomatch h)
  | vbool b => exact idem_nonstr M nmd fz field t (.vbool b) (fun s h => nomatch h)
  | vint n => exact idem_nonstr M nmd fz field t (.vint n) (fun s h => nomatch h)
  | vfloat q => exact idem_nonstr M nmd fz field t (.vfloat q) (fun s h => nomatch h)
  | vlist l => exact idem_nonstr M nmd fz field t (.vlist l) (fun s h => nomatch h)
  | vdict d => exact idem_nonstr M nmd fz field t (.vdict d) (fun s h => nomatch h)

/-- Witness for C6: the stability hypotheses hold at a concrete
mapping instance and idempotence follows there. -/
theorem C6_normalize_value_idempotent_witness :
    MappingsStable stableMappings nmdConst fzNone ∧
    normalize_value stableMappings nmdConst fzNone "gender"
        (normalize_value stableMappings nmdConst fzNone "gender" (.vstr " m ") "string")
        "string"
      = normalize_value stableMappings nmdConst fzNone "gender" (.vstr " m ") "string" := by
  have hstable : MappingsStable stableMappings nmdConst fzNone := by
    refine ⟨by decide, by decide, by decide, ?_, ?_, ?_⟩
    · intro n
      show DateOutOK stableMappings nmdConst fzNone "2099-01-01"
      exact ⟨by decide, by decide, by decide, by decide, by decide⟩
    · intro s w h
      exact absurd h (by simp [fzNone])
    · intro l h
      rfl
  exact ⟨hstable,
    C6_normalize_value_idempotent stableMappings nmdConst fzNone hstable
      "gender" (.vstr " m ") "string"⟩

/-- Witness for C9 as amended at a concrete unparseable date. -/
theorem C9_amended_unparsed_date_passthrough_witness :
    parse_date demoMappings nmdConst fzNone " notadate "
      = ⟨monthSubst demoMappings (pyStripList " notadate ".data)⟩ ∧
    validate_filter ⟨"joining_date", "=",
        .vstr (parse_date demoMappings nmdConst fzNone " notadate ")⟩ demoConfig = [] :=
  ⟨(C9_amended_unparsed_date_passthrough demoMappings nmdConst fzNone " notadate "
      (by decide) rfl).1,
   (C9_amended_unparsed_date_passthrough demoMappings nmdConst fzNone " notadate "
      (by decide) rfl).2 demoConfig "joining_date" "=" (by decide) (by decide)
      (by decide) (by decide) (by decide) (by decide)⟩

end Audient
